import Mathlib

/-!
Verification of the flower/petal deformation demo (src/src/App.js).

The program deforms each petal mesh every frame: per vertex it applies
noise displacement, elongation, radial compression and a twist rotation,
then writes the result back into the geometry buffer.  The `Flower`
component lays out `petalCount` petals radially.

Numbers are modelled as real numbers; the external simplex-noise sampler
(the `simplex-noise` package, not part of the repository sources) is an
abstract parameter constrained by the spec's NoiseField contract.
-/

/-- A vertex position, the `(x, y, z)` triple read from/written to the
geometry's position attribute. -/
@[ext]
structure Vertex where
  x : ℝ
  y : ℝ
  z : ℝ

/-- The numeric shape parameters received as props by `Petal`
(`elongation`, `compression`, `twist`, `noiseScale`, `noiseSpeed`);
`petalCount`, `petalSize` and `color` are used only by `Flower`/`App`. -/
structure ShapeParams where
  elongation : ℝ
  compression : ℝ
  twist : ℝ
  noiseScale : ℝ
  noiseSpeed : ℝ

/-- The elongation stage applied to the (noised) y coordinate,
App.js line 37: `y *= 1 + (elongation - 1) * Math.abs(y)`. -/
def elongate (elongation y : ℝ) : ℝ :=
  y * (1 + (elongation - 1) * |y|)

/-- One vertex of the per-frame deformation loop, App.js lines 26-51,
with the noise sampler `noise3D` abstracted as the argument `noise` and
`t` the accumulated `time.current`.  Straight-line transcription of the
loop body. -/
noncomputable def deformVertex (noise : ℝ → ℝ → ℝ → ℝ) (p : ShapeParams)
    (t : ℝ) (v : Vertex) : Vertex :=
  let x := v.x
  let y := v.y
  let z := v.z
  let noiseValue := noise (x * p.noiseScale) (y * p.noiseScale) t * 0.2
  let x := x + noiseValue
  let y := y + noiseValue
  let z := z + noiseValue
  let y := elongate p.elongation y
  let compressionFactor := 1 + (p.compression - 1) * (1 - |y|)
  let x := x * compressionFactor
  let z := z * compressionFactor
  let twistAngle := y * p.twist * Real.pi * 2
  let cosAngle := Real.cos twistAngle
  let sinAngle := Real.sin twistAngle
  let newX := x * cosAngle - z * sinAngle
  let newZ := x * sinAngle + z * cosAngle
  ⟨newX, y, newZ⟩

/-- A whole frame's deformed buffer as a function of the base vertices. -/
noncomputable def deformMesh (noise : ℝ → ℝ → ℝ → ℝ) (p : ShapeParams)
    (t : ℝ) (base : List Vertex) : List Vertex :=
  base.map (deformVertex noise p t)

/-! Spec-side stage functions, written from the spec's formulas, to be
compared with `deformVertex` (claim C1). -/

/-- Spec stage 1: `n = sample(x × noiseScale, y × noiseScale, phase) × 0.2`
added to x, y and z uniformly. -/
def noiseStage (noise : ℝ → ℝ → ℝ → ℝ) (noiseScale phase : ℝ)
    (v : Vertex) : Vertex :=
  let n := noise (v.x * noiseScale) (v.y * noiseScale) phase * 0.2
  ⟨v.x + n, v.y + n, v.z + n⟩

/-- Spec stage 2: elongation `y' = y × (1 + (elongation − 1) × |y|)`. -/
def elongationStage (elongation : ℝ) (v : Vertex) : Vertex :=
  ⟨v.x, v.y * (1 + (elongation - 1) * |v.y|), v.z⟩

/-- Spec stage 3: compression
`factor = 1 + (compression − 1) × (1 − |y'|)`, scaling x and z. -/
def compressionStage (compression : ℝ) (v : Vertex) : Vertex :=
  let factor := 1 + (compression - 1) * (1 - |v.y|)
  ⟨v.x * factor, v.y, v.z * factor⟩

/-- Spec stage 4: rotate (x, z) about the y-axis by `y' × twist × 2π`. -/
noncomputable def twistStage (twist : ℝ) (v : Vertex) : Vertex :=
  let angle := v.y * twist * (2 * Real.pi)
  ⟨v.x * Real.cos angle - v.z * Real.sin angle, v.y,
    v.x * Real.sin angle + v.z * Real.cos angle⟩

/-- Claim C1: `deformVertex` is exactly the composition of the four spec
stages, noise → elongation → compression → twist, each stage consuming
the previous stage's output. -/
theorem deformVertex_eq_stage_composition
    (noise : ℝ → ℝ → ℝ → ℝ) (p : ShapeParams) (t : ℝ) (v : Vertex) :
    deformVertex noise p t v =
      twistStage p.twist (compressionStage p.compression
        (elongationStage p.elongation (noiseStage noise p.noiseScale t v))) := by
  simp only [deformVertex, twistStage, compressionStage, elongationStage,
    noiseStage, elongate]
  ring_nf

/-- Claim C7 (as stated, the `elongation < 1` half fails):
at elongation = −2 and y = 1 the elongated coordinate is −2,
whose magnitude exceeds |y| = 1. -/
theorem elongate_shrink_fails_at_neg_two :
    ¬ |elongate (-2) 1| ≤ |(1 : ℝ)| := by
  simp only [elongate]
  norm_num

/-- Claim C7 (amended): for elongation > 1, `|y'| ≥ |y|` always; for
elongation < 1 the bound `|y'| ≤ |y|` holds provided the stretch factor
stays above −1, i.e. `(1 − elongation) × |y| ≤ 2` (true throughout the
UI range elongation ≥ 0.5 on the noised mesh, where `|y| ≤ 4`). -/
theorem elongate_monotone (e y : ℝ) (hy : y ≠ 0) :
    (1 < e → |y| ≤ |elongate e y|) ∧
      (e < 1 → (1 - e) * |y| ≤ 2 → |elongate e y| ≤ |y|) := by
  have hab : |elongate e y| = |y| * abs (1 + (e - 1) * |y|) := by
    rw [elongate, abs_mul]
  constructor
  · intro he
    rw [hab]
    have h1 : (1 : ℝ) ≤ 1 + (e - 1) * |y| := by
      have := abs_nonneg y
      nlinarith
    calc |y| = |y| * 1 := (mul_one _).symm
      _ ≤ |y| * abs (1 + (e - 1) * |y|) := by
          apply mul_le_mul_of_nonneg_left _ (abs_nonneg y)
          rw [abs_of_pos (by linarith)]
          exact h1
  · intro he hb
    rw [hab]
    have h1 : abs (1 + (e - 1) * |y|) ≤ 1 := by
      rw [abs_le]
      constructor
      · nlinarith
      · nlinarith [abs_nonneg y]
    calc |y| * abs (1 + (e - 1) * |y|) ≤ |y| * 1 :=
          mul_le_mul_of_nonneg_left h1 (abs_nonneg y)
      _ = |y| := mul_one _

/-- Witness for C7's amended theorem at (e, y) = (2, 1) and (1/2, 1). -/
theorem elongate_monotone_witness :
    ((1 : ℝ) ≠ 0 ∧ (1 : ℝ) < 2 ∧ |(1 : ℝ)| ≤ |elongate 2 1|) ∧
      ((1 / 2 : ℝ) < 1 ∧ (1 - 1 / 2 : ℝ) * |(1 : ℝ)| ≤ 2 ∧
        |elongate (1 / 2) 1| ≤ |(1 : ℝ)|) :=
  ⟨⟨by norm_num, by norm_num,
      (elongate_monotone 2 1 (by norm_num)).1 (by norm_num)⟩,
    ⟨by norm_num, by norm_num,
      (elongate_monotone (1 / 2) 1 (by norm_num)).2 (by norm_num) (by norm_num)⟩⟩

/-- Claim C8: with twist = 0 the final coordinates are exactly the
post-compression coordinates: the twist rotation is the identity, for
any elongation, compression, noise and phase. -/
theorem twist_zero_identity (noise : ℝ → ℝ → ℝ → ℝ)
    (e c ns sp t : ℝ) (v : Vertex) :
    deformVertex noise ⟨e, c, 0, ns, sp⟩ t v =
      compressionStage c (elongationStage e (noiseStage noise ns t v)) := by
  simp only [deformVertex, compressionStage, elongationStage, noiseStage,
    elongate, mul_zero, zero_mul, Real.cos_zero, Real.sin_zero, mul_one,
    sub_zero, add_zero]
  ext <;> ring

/-- Claim C10: the output y coordinate depends only on elongation,
noiseScale (and the noise sampler and phase) — never on twist,
compression or noiseSpeed. -/
theorem deform_y_independent_of_twist_compression
    (noise : ℝ → ℝ → ℝ → ℝ) (p₁ p₂ : ShapeParams) (t : ℝ) (v : Vertex)
    (he : p₁.elongation = p₂.elongation)
    (hns : p₁.noiseScale = p₂.noiseScale)
    (hsp : p₁.noiseSpeed = p₂.noiseSpeed) :
    (deformVertex noise p₁ t v).y = (deformVertex noise p₂ t v).y := by
  simp only [deformVertex, elongate, he, hns]

/-- Witness for C10: two parameter sets differing in compression and
twist give the same y at a concrete vertex. -/
theorem deform_y_independent_witness :
    (deformVertex (fun _ _ _ => 0) ⟨1, 2, 3, 4, 5⟩ 0 ⟨1, 1, 1⟩).y =
      (deformVertex (fun _ _ _ => 0) ⟨1, 7, 9, 4, 5⟩ 0 ⟨1, 1, 1⟩).y :=
  deform_y_independent_of_twist_compression (fun _ _ _ => 0)
    ⟨1, 2, 3, 4, 5⟩ ⟨1, 7, 9, 4, 5⟩ 0 ⟨1, 1, 1⟩ rfl rfl rfl

/-- Modelled from the spec: the `NoiseField` contract (spec section 4.1).
The actual sampler is `createNoise3D()` from the external `simplex-noise`
package, whose code is not part of the repository sources; the spec
requires only a deterministic function with values in approximately
[-1, 1].  (Continuity is irrelevant to the claims below and omitted.) -/
structure NoiseField where
  sample : ℝ → ℝ → ℝ → ℝ
  bounded : ∀ x y z, |sample x y z| ≤ 1

/-- A contract-compliant noise field that is constantly 1. -/
def constOneNoise : NoiseField :=
  ⟨fun _ _ _ => 1, fun _ _ _ => by norm_num⟩

/-- A contract-compliant noise field that is constantly 0. -/
def zeroNoise : NoiseField :=
  ⟨fun _ _ _ => 0, fun _ _ _ => by norm_num⟩

/-- Claim C2 (as stated, fails): with elongation = 1, compression = 1,
twist = 0, noiseScale = 0 (and even noiseSpeed = 0 at phase 0) there is a
contract-compliant noise field for which the deformed mesh differs from
the base mesh: the noise sample at the collapsed input (0, 0, phase)
need not vanish, and it is added to every coordinate. -/
theorem identity_params_counterexample :
    deformMesh constOneNoise.sample ⟨1, 1, 0, 0, 0⟩ 0 [⟨0, 0, 0⟩] ≠
      [(⟨0, 0, 0⟩ : Vertex)] := by
  intro h
  have hy := congrArg Vertex.y (List.head_eq_of_cons_eq h)
  simp only [deformMesh, List.map_cons, deformVertex, elongate,
    constOneNoise] at hy
  norm_num at hy

/-- Claim C2 (amended): with elongation = 1, compression = 1, twist = 0
and noiseScale = 0, the deformation is the identity on the mesh provided
the noise sample at the collapsed input (0, 0, phase) is zero (e.g. for
a sampler vanishing at the spatial origin, or at phase 0 for the
simplex family); in general every vertex is translated by the same
constant `sample(0, 0, phase) × 0.2` on all three coordinates. -/
theorem identity_params_deform (nf : NoiseField) (p : ShapeParams)
    (t : ℝ) (base : List Vertex)
    (he : p.elongation = 1) (hc : p.compression = 1) (htw : p.twist = 0)
    (hns : p.noiseScale = 0) (hn : nf.sample 0 0 t = 0) :
    deformMesh nf.sample p t base = base := by
  have hv : ∀ v : Vertex, deformVertex nf.sample p t v = v := by
    intro v
    simp only [deformVertex, elongate, he, hc, htw, hns, mul_zero, zero_mul,
      hn, add_zero, zero_add, sub_self, Real.cos_zero, Real.sin_zero,
      mul_one, sub_zero]
  simp only [deformMesh]
  rw [List.map_congr_left fun v _ => hv v, List.map_id']

/-- Witness for C2's amended theorem: the zero noise field at phase 0 on
a one-vertex mesh. -/
theorem identity_params_deform_witness :
    deformMesh zeroNoise.sample ⟨1, 1, 0, 0, 0⟩ 0 [⟨1, 2, 3⟩] =
      [(⟨1, 2, 3⟩ : Vertex)] :=
  identity_params_deform zeroNoise ⟨1, 1, 0, 0, 0⟩ 0 [⟨1, 2, 3⟩]
    rfl rfl rfl rfl rfl

/-! For the error-handling claim the pipeline is re-traced over
JavaScript numbers modelled as real values extended with NaN; every
arithmetic operation and `Math` function the loop uses propagates NaN,
exactly as IEEE-754 doubles do. -/

/-- A JavaScript number: a (finite) real value or NaN. -/
inductive JSVal where
  | num : ℝ → JSVal
  | nan : JSVal

namespace JSVal

/-- Addition; NaN-propagating. -/
def add : JSVal → JSVal → JSVal
  | num a, num b => num (a + b)
  | _, _ => nan

/-- Subtraction; NaN-propagating. -/
def sub : JSVal → JSVal → JSVal
  | num a, num b => num (a - b)
  | _, _ => nan

/-- Multiplication; NaN-propagating. -/
def mul : JSVal → JSVal → JSVal
  | num a, num b => num (a * b)
  | _, _ => nan

/-- `Math.abs`; NaN-propagating. -/
noncomputable def jabs : JSVal → JSVal
  | num a => num |a|
  | nan => nan

/-- `Math.cos`; NaN-propagating. -/
noncomputable def jcos : JSVal → JSVal
  | num a => num (Real.cos a)
  | nan => nan

/-- `Math.sin`; NaN-propagating. -/
noncomputable def jsin : JSVal → JSVal
  | num a => num (Real.sin a)
  | nan => nan

instance : Add JSVal := ⟨add⟩

instance : Sub JSVal := ⟨sub⟩

instance : Mul JSVal := ⟨mul⟩

end JSVal

/-- A vertex over JavaScript numbers. -/
structure VertexJS where
  x : JSVal
  y : JSVal
  z : JSVal

/-- Shape parameters over JavaScript numbers, as the `Petal` props
arrive at the deformation loop (no finiteness check anywhere). -/
structure ShapeParamsJS where
  elongation : JSVal
  compression : JSVal
  twist : JSVal
  noiseScale : JSVal
  noiseSpeed : JSVal

/-- The deformation loop body over JavaScript numbers: the same
transcription of App.js lines 26-51 as `deformVertex`, with NaN
tracked. -/
noncomputable def deformVertexJS (noise : JSVal → JSVal → JSVal → JSVal)
    (p : ShapeParamsJS) (t : JSVal) (v : VertexJS) : VertexJS :=
  let x := v.x
  let y := v.y
  let z := v.z
  let noiseValue := noise (x * p.noiseScale) (y * p.noiseScale) t *
    JSVal.num 0.2
  let x := x + noiseValue
  let y := y + noiseValue
  let z := z + noiseValue
  let y := y * (JSVal.num 1 + (p.elongation - JSVal.num 1) * JSVal.jabs y)
  let compressionFactor := JSVal.num 1 +
    (p.compression - JSVal.num 1) * (JSVal.num 1 - JSVal.jabs y)
  let x := x * compressionFactor
  let z := z * compressionFactor
  let twistAngle := y * p.twist * JSVal.num Real.pi * JSVal.num 2
  let cosAngle := JSVal.jcos twistAngle
  let sinAngle := JSVal.jsin twistAngle
  let newX := x * cosAngle - z * sinAngle
  let newZ := x * sinAngle + z * cosAngle
  ⟨newX, y, newZ⟩

/-- A frame over JavaScript numbers. -/
noncomputable def deformMeshJS (noise : JSVal → JSVal → JSVal → JSVal)
    (p : ShapeParamsJS) (t : JSVal) (base : List VertexJS) : List VertexJS :=
  base.map (deformVertexJS noise p t)

/-- Claim C3 (as stated, fails): the loop has no finiteness guard; with
a NaN elongation parameter the NaN reaches the written-back geometry:
at the concrete vertex (1, 1, 1) every output coordinate is NaN.  No
last-known-good or default value is ever substituted. -/
theorem nan_param_counterexample :
    (deformVertexJS (fun _ _ _ => JSVal.num 0)
        ⟨JSVal.nan, JSVal.num 1, JSVal.num 0, JSVal.num 0, JSVal.num 0⟩
        (JSVal.num 0)
        ⟨JSVal.num 1, JSVal.num 1, JSVal.num 1⟩).y = JSVal.nan :=
  rfl

/-- Claim C3 (amended): the code performs no substitution for non-finite
parameters; a NaN elongation propagates into the output y of every
vertex (and a frame is still produced, one output vertex per base
vertex). -/
theorem nan_param_propagates (noise : JSVal → JSVal → JSVal → JSVal)
    (p : ShapeParamsJS) (t : JSVal) (v : VertexJS) (base : List VertexJS)
    (he : p.elongation = JSVal.nan) :
    (deformVertexJS noise p t v).y = JSVal.nan ∧
      (deformMeshJS noise p t base).length = base.length := by
  constructor
  · simp only [deformVertexJS, he]
    rcases hx : v.y + noise (v.x * p.noiseScale) (v.y * p.noiseScale) t *
        JSVal.num 0.2 with a | _
    all_goals rfl
  · simp [deformMeshJS]

/-- Witness for C3's amended theorem at a concrete NaN parameter set. -/
theorem nan_param_propagates_witness :
    (deformVertexJS (fun _ _ _ => JSVal.num 0)
        ⟨JSVal.nan, JSVal.num 2, JSVal.num 3, JSVal.num 1, JSVal.num 1⟩
        (JSVal.num 0)
        ⟨JSVal.num 1, JSVal.num 0, JSVal.num 1⟩).y = JSVal.nan ∧
      (deformMeshJS (fun _ _ _ => JSVal.num 0)
        ⟨JSVal.nan, JSVal.num 2, JSVal.num 3, JSVal.num 1, JSVal.num 1⟩
        (JSVal.num 0) [⟨JSVal.num 1, JSVal.num 0, JSVal.num 1⟩]).length =
        [(⟨JSVal.num 1, JSVal.num 0, JSVal.num 1⟩ : VertexJS)].length :=
  nan_param_propagates (fun _ _ _ => JSVal.num 0)
    ⟨JSVal.nan, JSVal.num 2, JSVal.num 3, JSVal.num 1, JSVal.num 1⟩
    (JSVal.num 0) ⟨JSVal.num 1, JSVal.num 0, JSVal.num 1⟩
    [⟨JSVal.num 1, JSVal.num 0, JSVal.num 1⟩] rfl

/-- The placement of one petal: `position`, the z rotation from
`rotation={[0, 0, angle]}`, and the uniform scale from
`scale={[petalSize * 0.2, ...]}`. -/
structure PetalPlacement where
  position : ℝ × ℝ × ℝ
  rotationZ : ℝ
  scale : ℝ

instance : Inhabited PetalPlacement :=
  ⟨⟨(0, 0, 0), 0, 0⟩⟩

/-- The `petals` loop of the `Flower` component, App.js lines 69-90:
for each index i, `angle = (i / petalCount) * Math.PI * 2`, position
`(cos(angle) * petalSize * 0.5, sin(angle) * petalSize * 0.5, 0)`,
rotation `[0, 0, angle]`, uniform scale `petalSize * 0.2`. -/
noncomputable def layout (petalCount : ℕ) (petalSize : ℝ) :
    List PetalPlacement :=
  (List.range petalCount).map fun (i : ℕ) =>
    let angle := ((i : ℝ) / (petalCount : ℝ)) * Real.pi * 2
    { position := (Real.cos angle * petalSize * 0.5,
        Real.sin angle * petalSize * 0.5, 0)
      rotationZ := angle
      scale := petalSize * 0.2 }

/-- Claim C4: for petalCount = N ≥ 1 the layout has exactly N
placements; placement i sits at angle `(i / N) × 2π` with the claimed
position, z rotation and scale; consecutive angles differ by `2π / N`
and the first angle is 0 (so N = 1 gives one placement at angle 0). -/
theorem layout_radial (N : ℕ) (s : ℝ) (hN : 1 ≤ N) :
    (layout N s).length = N ∧
      (∀ i, i < N →
        (layout N s).getD i default =
          ⟨(Real.cos ((i : ℝ) / (N : ℝ) * (2 * Real.pi)) * s * 0.5,
              Real.sin ((i : ℝ) / (N : ℝ) * (2 * Real.pi)) * s * 0.5, 0),
            (i : ℝ) / (N : ℝ) * (2 * Real.pi), s * 0.2⟩) ∧
      (∀ i, i + 1 < N →
        ((layout N s).getD (i + 1) default).rotationZ -
            ((layout N s).getD i default).rotationZ = 2 * Real.pi / N) ∧
      ((layout N s).getD 0 default).rotationZ = 0 := by
  have hN0 : (N : ℝ) ≠ 0 := Nat.cast_ne_zero.mpr (by omega)
  have hget : ∀ i, i < N →
      (layout N s).getD i default =
        ⟨(Real.cos ((i : ℝ) / (N : ℝ) * Real.pi * 2) * s * 0.5,
            Real.sin ((i : ℝ) / (N : ℝ) * Real.pi * 2) * s * 0.5, 0),
          (i : ℝ) / (N : ℝ) * Real.pi * 2, s * 0.2⟩ := by
    intro i hi
    rw [List.getD_eq_getElem?_getD, layout, List.getElem?_map,
      List.getElem?_range hi]
    rfl
  constructor
  · simp [layout]
  refine ⟨?_, ?_, ?_⟩
  · intro i hi
    rw [hget i hi]
    have : (i : ℝ) / (N : ℝ) * Real.pi * 2 =
        (i : ℝ) / (N : ℝ) * (2 * Real.pi) := by ring
    rw [this]
  · intro i hi
    rw [hget (i + 1) hi, hget i (by omega)]
    push_cast
    field_simp
    ring
  · rw [hget 0 (by omega)]
    simp

/-- Witness for C4 at petalCount = 3, petalSize = 2. -/
theorem layout_radial_witness :
    1 ≤ 3 ∧ (layout 3 2).length = 3 ∧
      ((layout 3 2).getD 0 default).rotationZ = 0 :=
  ⟨by decide, (layout_radial 3 2 (by decide)).1,
    (layout_radial 3 2 (by decide)).2.2.2⟩

/-! The per-petal mutable state of the `Petal` component: the lazily
captured `initialPositions` ref, the geometry's live position buffer,
and the `time` ref. -/

/-- The refs and geometry buffer owned by one `Petal` instance. -/
structure PetalState where
  initialPositions : Option (List Vertex)
  positions : List Vertex
  time : ℝ

/-- The write-back loop, App.js lines 25-52: for each index `i` below
the position attribute's count, deform vertex `i` of the captured
initial positions and `setXYZ` it into the buffer. -/
noncomputable def writeFrame (noise : ℝ → ℝ → ℝ → ℝ) (p : ShapeParams)
    (t : ℝ) (init buf : List Vertex) : List Vertex :=
  (List.range buf.length).foldl
    (fun acc i => acc.set i (deformVertex noise p t (init.getD i ⟨0, 0, 0⟩)))
    buf

/-- One `useFrame` callback, App.js lines 15-56: accumulate the time
ref, capture `initialPositions` from the buffer if not yet captured,
then run the write-back loop.  (`meshRef.current` is the mounted mesh.) -/
noncomputable def stepPetal (noise : ℝ → ℝ → ℝ → ℝ) (delta : ℝ)
    (p : ShapeParams) (s : PetalState) : PetalState :=
  let t := s.time + delta * p.noiseSpeed
  let init := s.initialPositions.getD s.positions
  { initialPositions := some init
    positions := writeFrame noise p t init s.positions
    time := t }

/-- Folding index-wise writes over `range n` rewrites the first `n`
entries of the buffer and keeps the rest. -/
theorem foldl_set_range {α : Type} (f : ℕ → α) :
    ∀ (n : ℕ) (l : List α), n ≤ l.length →
      (List.range n).foldl (fun acc i => acc.set i (f i)) l =
        (List.range n).map f ++ l.drop n := by
  intro n
  induction n with
  | zero => intro l _; simp
  | succ n ih =>
    intro l h
    rw [List.range_succ, List.foldl_append, List.map_append,
      ih l (by omega)]
    simp only [List.foldl_cons, List.foldl_nil, List.map_cons,
      List.map_nil]
    rw [List.set_append_right _ _ (by simp)]
    simp only [List.length_map, List.length_range, Nat.sub_self]
    rw [show (List.drop n l).set 0 (f n) = f n :: List.drop (n + 1) l by
      rw [List.drop_eq_getElem_cons (show n < l.length by omega)]
      simp only [List.set_cons_zero]]
    simp [List.append_assoc]

/-- Reading back each index of a list through `getD` is the identity
composed with the read function. -/
theorem map_getD_range {α β : Type} (g : α → β) (d : α) :
    ∀ l : List α,
      (List.range l.length).map (fun i => g (l.getD i d)) = l.map g := by
  intro l
  induction l with
  | nil => rfl
  | cons a l ih =>
    rw [List.length_cons, List.range_succ_eq_map, List.map_cons,
      List.map_map, List.map_cons]
    refine congrArg₂ _ rfl ?_
    simpa [Function.comp_def] using ih

/-- When the captured initial buffer and the live buffer have the same
length (always true: the geometry is fixed), the write-back loop is
exactly a map of `deformVertex` over the initial positions. -/
theorem writeFrame_eq_map (noise : ℝ → ℝ → ℝ → ℝ) (p : ShapeParams)
    (t : ℝ) (init buf : List Vertex) (hlen : init.length = buf.length) :
    writeFrame noise p t init buf = deformMesh noise p t init := by
  rw [writeFrame, foldl_set_range _ _ _ (le_refl _), List.drop_length,
    List.append_nil, deformMesh, ← hlen]
  exact map_getD_range (deformVertex noise p t) ⟨0, 0, 0⟩ init

/-- Claim C9: a frame never changes the vertex count, and vertex `i` of
the written buffer is the deformation of vertex `i` of the captured
base, for any parameters. -/
theorem advance_preserves_vertices (noise : ℝ → ℝ → ℝ → ℝ) (delta : ℝ)
    (p : ShapeParams) (s : PetalState)
    (hlen : (s.initialPositions.getD s.positions).length =
      s.positions.length) :
    (stepPetal noise delta p s).positions.length =
        (s.initialPositions.getD s.positions).length ∧
      ∀ i, i < (s.initialPositions.getD s.positions).length →
        (stepPetal noise delta p s).positions.getD i ⟨0, 0, 0⟩ =
          deformVertex noise p (s.time + delta * p.noiseSpeed)
            ((s.initialPositions.getD s.positions).getD i ⟨0, 0, 0⟩) := by
  have hw : (stepPetal noise delta p s).positions =
      deformMesh noise p (s.time + delta * p.noiseSpeed)
        (s.initialPositions.getD s.positions) := by
    simp only [stepPetal]
    exact writeFrame_eq_map _ _ _ _ _ hlen
  constructor
  · rw [hw]; simp [deformMesh]
  · intro i hi
    rw [hw, deformMesh]
    rw [List.getD_eq_getElem _ _ (by simpa using hi),
      List.getD_eq_getElem _ _ hi, List.getElem_map]

/-- Witness for C9: a first frame on a one-vertex mesh. -/
theorem advance_preserves_vertices_witness :
    (stepPetal (fun _ _ _ => 0) 1 ⟨1, 1, 1, 1, 1⟩
        ⟨none, [⟨1, 2, 3⟩], 0⟩).positions.length =
      ((none : Option (List Vertex)).getD [⟨1, 2, 3⟩]).length :=
  (advance_preserves_vertices (fun _ _ _ => 0) 1 ⟨1, 1, 1, 1, 1⟩
    ⟨none, [⟨1, 2, 3⟩], 0⟩ rfl).1

/-- Claim C5: a frame never mutates the captured base positions, and
the written buffer is a function of the base, the parameters and the
new phase alone — in particular two frames from the same base and phase
with the same parameters produce the same buffer, regardless of what
the incoming (previous frame's) buffer holds. -/
theorem advance_from_base_only (noise : ℝ → ℝ → ℝ → ℝ) (delta : ℝ)
    (p : ShapeParams) (s₁ s₂ : PetalState) (b : List Vertex)
    (h₁ : s₁.initialPositions = some b)
    (h₂ : s₂.initialPositions = some b)
    (ht : s₁.time = s₂.time)
    (hl₁ : b.length = s₁.positions.length)
    (hl₂ : b.length = s₂.positions.length) :
    (stepPetal noise delta p s₁).initialPositions = some b ∧
      (stepPetal noise delta p s₁).positions =
        deformMesh noise p (s₁.time + delta * p.noiseSpeed) b ∧
      (stepPetal noise delta p s₁).positions =
        (stepPetal noise delta p s₂).positions := by
  have hw : ∀ s : PetalState, s.initialPositions = some b →
      b.length = s.positions.length →
      (stepPetal noise delta p s).positions =
        deformMesh noise p (s.time + delta * p.noiseSpeed) b := by
    intro s hs hl
    simp only [stepPetal, hs, Option.getD_some]
    exact writeFrame_eq_map _ _ _ _ _ hl
  refine ⟨?_, hw s₁ h₁ hl₁, ?_⟩
  · simp [stepPetal, h₁]
  · rw [hw s₁ h₁ hl₁, hw s₂ h₂ hl₂, ht]

/-- Witness for C5: two states sharing base and phase but with
different live buffers produce the same frame. -/
theorem advance_from_base_only_witness :
    (stepPetal (fun _ _ _ => 0) 1 ⟨1, 1, 1, 1, 1⟩
        ⟨some [⟨1, 2, 3⟩], [⟨4, 4, 4⟩], 0⟩).initialPositions =
        some [(⟨1, 2, 3⟩ : Vertex)] ∧
      (stepPetal (fun _ _ _ => 0) 1 ⟨1, 1, 1, 1, 1⟩
          ⟨some [⟨1, 2, 3⟩], [⟨4, 4, 4⟩], 0⟩).positions =
        deformMesh (fun _ _ _ => 0) ⟨1, 1, 1, 1, 1⟩ (0 + 1 * 1)
          [⟨1, 2, 3⟩] ∧
      (stepPetal (fun _ _ _ => 0) 1 ⟨1, 1, 1, 1, 1⟩
          ⟨some [⟨1, 2, 3⟩], [⟨4, 4, 4⟩], 0⟩).positions =
        (stepPetal (fun _ _ _ => 0) 1 ⟨1, 1, 1, 1, 1⟩
          ⟨some [⟨1, 2, 3⟩], [⟨9, 9, 9⟩], 0⟩).positions :=
  advance_from_base_only (fun _ _ _ => 0) 1 ⟨1, 1, 1, 1, 1⟩
    ⟨some [⟨1, 2, 3⟩], [⟨4, 4, 4⟩], 0⟩ ⟨some [⟨1, 2, 3⟩], [⟨9, 9, 9⟩], 0⟩
    [⟨1, 2, 3⟩] rfl rfl rfl rfl rfl

/-- Modelled from the spec: FlowerController / React keyed
reconciliation (spec section 4.4; the `Flower` component keys each
`Petal` by its index, App.js line 76, so a render with `newCount` slots
keeps the state of every index that already exists and creates fresh
state only for new indices).  The reconciliation itself is performed by
the UI framework, which is not part of the repository sources. -/
def reconcile (states : List PetalState) (newCount : ℕ)
    (fresh : PetalState) : List PetalState :=
  (List.range newCount).map fun i => states.getD i fresh

/-- Claim C6: each tick adds exactly `deltaTime × noiseSpeed` to the
phase; the phase is non-decreasing for positive deltas and nonnegative
noiseSpeed; and a re-render that keeps the petal count (e.g. a
petalSize change) reconciles every petal to its existing state, so no
petal's phase is reset. -/
theorem phase_accumulates (noise : ℝ → ℝ → ℝ → ℝ) (delta : ℝ)
    (p : ShapeParams) (s : PetalState) (states : List PetalState)
    (fresh : PetalState) (hd : 0 < delta) (hs : 0 ≤ p.noiseSpeed) :
    (stepPetal noise delta p s).time = s.time + delta * p.noiseSpeed ∧
      s.time ≤ (stepPetal noise delta p s).time ∧
      reconcile states states.length fresh = states := by
  refine ⟨rfl, ?_, ?_⟩
  · simp only [stepPetal]
    nlinarith
  · rw [reconcile]
    have := map_getD_range (fun st : PetalState => st) fresh states
    simpa using this

/-- Witness for C6 at delta = 1, noiseSpeed = 1 and a one-petal state
list. -/
theorem phase_accumulates_witness :
    (0 : ℝ) < 1 ∧ (0 : ℝ) ≤ 1 ∧
      ((stepPetal (fun _ _ _ => 0) 1 ⟨1, 1, 1, 1, 1⟩
          ⟨none, [], 2⟩).time = 2 + 1 * 1 ∧
        (2 : ℝ) ≤ (stepPetal (fun _ _ _ => 0) 1 ⟨1, 1, 1, 1, 1⟩
          ⟨none, [], 2⟩).time ∧
        reconcile [⟨none, [], 2⟩] [(⟨none, [], 2⟩ : PetalState)].length
          ⟨none, [], 0⟩ = [⟨none, [], 2⟩]) :=
  ⟨by norm_num, by norm_num,
    phase_accumulates (fun _ _ _ => 0) 1 ⟨1, 1, 1, 1, 1⟩ ⟨none, [], 2⟩
      [⟨none, [], 2⟩] ⟨none, [], 0⟩ (by norm_num) (by norm_num)⟩
